import Mathlib

/-!
Shallow embedding of `src/main.rs` of the tui-typing-test repository.

The program is a single `main` loop: each iteration first runs
`terminal.draw(..)` (whose closure both renders and mutates the session
state), then receives exactly one event from the channel and handles it.
We embed the state-mutating content of one loop iteration as pure
functions on an explicit state record:

* `drawHome`      — the `MenuItem::Home` arm of the draw closure together
                    with the countdown mutation done inside `render_home`
                    (main.rs lines 141-145, 284-291);
* `matchPhase`    — the word-match check of the `MenuItem::Game` arm
                    (lines 148-156);
* `timeoutPhase`  — the percent computation and GameOver transition
                    (lines 162-169);
* `drawGameOver`  — the restart refill of the `MenuItem::GameOver` arm
                    (lines 205-210);
* `handleEvent`   — the event `match` after the draw (lines 224-265);
* `loopStep`      — one full loop iteration: draw, then handle one event.

Machine integers (`usize`, `u64`) are embedded as `Nat`; `Instant` values
are abstracted as `Nat` seconds, and `game_start_time.unwrap().elapsed().as_secs()`
becomes truncated subtraction `now - g` (monotonic clocks never give a
negative duration). Partial operations of the source (`front().unwrap()`,
`game_start_time.unwrap()`) are embedded in `Option`, with `none` standing
for a panic. The word supplier `rand_word::new` is an external crate, not
part of src/; calls to it are parameters of the step functions, and the
length facts about its results used by `Reachable` are modelled from the
spec contract (`next_words(n)` yields a sequence of `n` words).
-/

namespace TuiTyping

/-- Rust `str::trim` (used on line 149): the string with leading and
trailing whitespace removed, embedded structurally over the character
list so that it computes by kernel reduction. -/
def strTrim (s : String) : String :=
  ⟨((s.data.dropWhile Char.isWhitespace).reverse.dropWhile Char.isWhitespace).reverse⟩

/-- Rust `String::pop` (used on line 230) as a pure function on the
string: removes the last character, a no-op on the empty string. -/
def strPop (s : String) : String :=
  ⟨s.data.dropLast⟩

/-- The `MenuItem` enum of main.rs (lines 41-45). -/
inductive MenuItem
  | Home
  | Game
  | GameOver
deriving DecidableEq

/-- Key codes, the fragment of `crossterm::event::KeyCode` matched by main.rs. -/
inductive KeyCode
  | Backspace
  | Enter
  | Char (c : Char)
  | Other
deriving DecidableEq

/-- Key modifiers, the fragment of `crossterm::event::KeyModifiers` matched by main.rs. -/
inductive KeyModifiers
  | NONE
  | CONTROL
  | OTHER
deriving DecidableEq

/-- A keyboard event: `crossterm::event::KeyEvent` restricted to the fields main.rs reads. -/
structure KeyEvent where
  code : KeyCode
  modifiers : KeyModifiers
deriving DecidableEq

/-- The `Event<I>` enum of main.rs (lines 35-38), with `I` the key event. -/
inductive Event
  | Input (k : KeyEvent)
  | Tick
deriving DecidableEq

/-- Result of `rx.recv()`: either an event, or the channel disconnected
(in which case the `?` on line 225/249 propagates an error out of `main`). -/
inductive RecvResult
  | ok (e : Event)
  | disconnected
deriving DecidableEq

/-- The mutable session state owned by `main` (main.rs lines 90-98). The
`game_words` list is the `VecDeque` with its front at the list head. -/
structure AppState where
  curr_input : String
  start : Bool
  countdown : Nat
  active_menu_item : MenuItem
  game_start_time : Option Nat
  game_words : List String
  score : Nat
deriving DecidableEq

/-- Initial state built on lines 90-98: `new(100)` supplies the initial
queue contents, passed in here as `words0`. -/
def initState (words0 : List String) : AppState :=
  { curr_input := ""
    start := false
    countdown := 3
    active_menu_item := MenuItem.Home
    game_start_time := none
    game_words := words0
    score := 0 }

/-- State effect of `render_home` (lines 284-291): when
`start && countdown > 0`, sleep one second (invisible here, since time is
an external parameter) and decrement the countdown. -/
def render_home (s : AppState) : AppState :=
  if s.start && decide (0 < s.countdown) then
    { s with countdown := s.countdown - 1 }
  else
    s

/-- The `MenuItem::Home` draw arm (lines 141-145): run `render_home`,
then, if `countdown == 0`, transition to Game and set `game_start_time`
to the current instant. Note the transition guard is only
`countdown == 0` — it does not test `start` — and `curr_input` is not
touched. -/
def drawHome (now : Nat) (s : AppState) : AppState :=
  let s1 := render_home s
  if s1.countdown = 0 then
    { s1 with active_menu_item := MenuItem.Game
              game_start_time := some now }
  else
    s1

/-- The word-match check at the top of the `MenuItem::Game` draw arm
(lines 148-156): `game_words.front().unwrap()` (a panic, hence `none`,
when the queue is empty), then if `curr_input.trim()` equals the head,
pop the head, push the `new(1)` replacement (`fresh1`) on the back, clear
the input and increment the score. -/
def matchPhase (fresh1 : String) (s : AppState) : Option AppState :=
  match s.game_words with
  | [] => none
  | w :: rest =>
    if strTrim s.curr_input = w then
      some { s with game_words := rest ++ [fresh1]
                    curr_input := ""
                    score := s.score + 1 }
    else
      some s

/-- The i32 value `percent` computed on line 164 before the clamp:
`100 - ((100.0 * in_game_timer as f32) / 60.0) as i32`. For every elapsed
second count `t` reachable in a session (far below 2^24), `100 * t` and
`t` are exactly representable in f32 and the truncating `as i32` cast of
the quotient equals the floor `(100 * t) / 60` over naturals, since
`100 * t / 60 = 5 * t / 3` is never within f32 rounding error of an
integer it does not equal; so the float expression is embedded as exact
natural floor division, subtracted in `Int` as the i32 subtraction is. -/
def percentRaw (t : Nat) : Int :=
  100 - ((100 * t) / 60 : Nat)

/-- The timer part of the `MenuItem::Game` draw arm (lines 162-169):
`game_start_time.unwrap()` (panic, hence `none`, when it is `None`),
elapsed whole seconds, then if `percent <= 0` the screen transitions to
GameOver and `start` is reset to `false`. -/
def timeoutPhase (now : Nat) (s : AppState) : Option AppState :=
  match s.game_start_time with
  | none => none
  | some g =>
    if percentRaw (now - g) ≤ 0 then
      some { s with active_menu_item := MenuItem.GameOver
                    start := false }
    else
      some s

/-- The restart branch of the `MenuItem::GameOver` draw arm (lines
205-210): when `start` is observed true, go back to Home and replace the
queue contents with the words from `new(100)` (passed as `fresh100`;
`clear` followed by `append` of the fresh batch leaves exactly the fresh
batch). -/
def drawGameOver (fresh100 : List String) (s : AppState) : AppState :=
  if s.start then
    { s with active_menu_item := MenuItem.Home
             game_words := fresh100 }
  else
    s

/-- State effect of one `terminal.draw` call (lines 101-222): dispatch on
the active menu item. `none` models a panic inside the closure (an
`unwrap` failing in the Game arm). -/
def drawStep (fresh1 : String) (fresh100 : List String) (now : Nat) (s : AppState) :
    Option AppState :=
  match s.active_menu_item with
  | MenuItem.Home => some (drawHome now s)
  | MenuItem.Game => (matchPhase fresh1 s).bind (timeoutPhase now)
  | MenuItem.GameOver => some (drawGameOver fresh100 s)

/-- Result of the event-handling half of a loop iteration: either the
loop continues with a new state, or `main` returns. On the clean quit
path (lines 251-255) raw mode is disabled and the cursor shown before
`break`, and the process exits with code 0; when `rx.recv()?` fails the
error propagates with no terminal restoration and a nonzero exit. -/
inductive StepResult
  | next (s : AppState)
  | exit (rawDisabled : Bool) (cursorShown : Bool) (code : Nat)
deriving DecidableEq

/-- The event `match` after the draw (lines 224-265). The dispatch is on
the `start` flag alone, never on `active_menu_item`: while `start` is
true, plain keys edit `curr_input` and nothing can quit; while `start` is
false, `q` quits cleanly and `s`/`r` arm a new race. -/
def handleEvent (r : RecvResult) (s : AppState) : StepResult :=
  match r with
  | RecvResult.disconnected => StepResult.exit false false 1
  | RecvResult.ok e =>
    if s.start then
      match e with
      | Event.Input k =>
        match k.modifiers with
        | KeyModifiers.NONE =>
          match k.code with
          | KeyCode.Backspace => StepResult.next { s with curr_input := strPop s.curr_input }
          | KeyCode.Char c => StepResult.next { s with curr_input := s.curr_input.push c }
          | _ => StepResult.next s
        | KeyModifiers.CONTROL =>
          if k.code = KeyCode.Char 'a' then
            StepResult.next { s with curr_input := "" }
          else
            StepResult.next s
        | _ => StepResult.next s
      | Event.Tick => StepResult.next s
    else
      match e with
      | Event.Input k =>
        match k.code with
        | KeyCode.Char c =>
          if c = 'q' then
            StepResult.exit true true 0
          else if c = 's' ∨ c = 'r' then
            StepResult.next { s with start := true, countdown := 3, score := 0 }
          else
            StepResult.next s
        | _ => StepResult.next s
      | Event.Tick => StepResult.next s

/-- Outcome of one full loop iteration: continue, return from `main`
(clean or error), or panic inside the draw closure. Neither the panic
path nor the error path runs `disable_raw_mode` / `show_cursor`; only the
clean `q` path does. -/
inductive LoopOutcome
  | next (s : AppState)
  | exit (rawDisabled : Bool) (cursorShown : Bool) (code : Nat)
  | panicked (rawDisabled : Bool) (cursorShown : Bool)
deriving DecidableEq

/-- One iteration of the `loop` on lines 100-266: the draw (with the
word-supplier results and the current instant as parameters), then one
received event. -/
def loopStep (fresh1 : String) (fresh100 : List String) (now : Nat) (r : RecvResult)
    (s : AppState) : LoopOutcome :=
  match drawStep fresh1 fresh100 now s with
  | none => LoopOutcome.panicked false false
  | some s1 =>
    match handleEvent r s1 with
    | StepResult.next s2 => LoopOutcome.next s2
    | StepResult.exit a b c => LoopOutcome.exit a b c

/-- States reachable from program start. The word-supplier length facts
are modelled from the spec: `next_words(n)` returns a sequence of exactly
`n` words (the supplier, `rand_word::new`, is an external crate and not
part of src/). -/
inductive Reachable : AppState → Prop
  | init (words0 : List String) (h100 : words0.length = 100) :
      Reachable (initState words0)
  | step {s s' : AppState} (fresh1 : String) (fresh100 : List String) (now : Nat)
      (r : RecvResult) (h100 : fresh100.length = 100) (hs : Reachable s)
      (hstep : loopStep fresh1 fresh100 now r s = LoopOutcome.next s') :
      Reachable s'

/-- A fixed 100-word supply used to instantiate theorems at concrete
states. -/
def words100 : List String := List.replicate 100 "cat"

/-- Concrete Game-screen state used to exercise the word-match theorems:
the typed input matches the head word. -/
def gameState : AppState :=
  { curr_input := "cat", start := true, countdown := 0,
    active_menu_item := MenuItem.Game, game_start_time := some 0,
    game_words := ["cat", "dog"], score := 0 }

/-- The state `gameState` becomes after the match check pops "cat" and
pushes the fresh word "fox". -/
def gameStateAfter : AppState :=
  { curr_input := "", start := true, countdown := 0,
    active_menu_item := MenuItem.Game, game_start_time := some 0,
    game_words := ["dog", "fox"], score := 1 }

/-- Concrete Home-screen state one countdown step before the race, with a
character already typed during the countdown. -/
def homeCountdownState : AppState :=
  { curr_input := "x", start := true, countdown := 1,
    active_menu_item := MenuItem.Home, game_start_time := none,
    game_words := ["w"], score := 0 }

/-- Concrete GameOver-screen state with a leftover partial input from the
finished race. -/
def gameOverState : AppState :=
  { curr_input := "xy", start := false, countdown := 0,
    active_menu_item := MenuItem.GameOver, game_start_time := some 0,
    game_words := ["w"], score := 7 }

/-- Concrete Game-screen state whose race clock is about to show 60
elapsed seconds. -/
def timeUpState : AppState :=
  { curr_input := "", start := true, countdown := 0,
    active_menu_item := MenuItem.Game, game_start_time := some 0,
    game_words := ["w"], score := 5 }

/-- The state `timeUpState` becomes once the Game render observes the
expired clock: GameOver, with `start` reset and the score kept. -/
def timeUpAfter : AppState :=
  { curr_input := "", start := false, countdown := 0,
    active_menu_item := MenuItem.GameOver, game_start_time := some 0,
    game_words := ["w"], score := 5 }

/-- The state `gameOverState` becomes after the restart key press:
`start` armed, countdown and score reset, input untouched. -/
def gameOverRearmed : AppState :=
  { curr_input := "xy", start := true, countdown := 3,
    active_menu_item := MenuItem.GameOver, game_start_time := some 0,
    game_words := ["w"], score := 0 }

/-- The word list delivered by the supplier for the restart refill in the
concrete restart scenario. -/
def refill100 : List String := List.replicate 100 "z"

/-- The state after the GameOver render performs the restart refill on
`gameOverRearmed`: back Home with 100 fresh words and the stale input
still in the buffer. -/
def restartedState : AppState :=
  { curr_input := "xy", start := true, countdown := 3,
    active_menu_item := MenuItem.Home, game_start_time := some 0,
    game_words := refill100, score := 0 }

/-- Inductive invariant of the loop state: the countdown stays in
`[0, 3]`; the countdown is nonzero whenever Home is about to be rendered
(and whenever a GameOver render will restart, i.e. `start` is true);
while in Game the start instant is set; and the word queue is never
empty. -/
def Inv (s : AppState) : Prop :=
  s.countdown ≤ 3 ∧
  (s.active_menu_item = MenuItem.Home → 1 ≤ s.countdown) ∧
  (s.active_menu_item = MenuItem.GameOver → s.start = true → 1 ≤ s.countdown) ∧
  (s.active_menu_item = MenuItem.Game → s.game_start_time.isSome = true) ∧
  s.game_words ≠ []

theorem inv_initState (words0 : List String) (h100 : words0.length = 100) :
    Inv (initState words0) := by
  refine ⟨by simp [initState], by simp [initState], by simp [initState],
    by simp [initState], ?_⟩
  intro h
  have h' : words0 = [] := h
  rw [h'] at h100
  simp at h100

theorem render_home_pos {s : AppState} (h1 : s.start = true) (h2 : 0 < s.countdown) :
    render_home s = { s with countdown := s.countdown - 1 } := by
  unfold render_home
  rw [if_pos (by simp [h1, h2])]

theorem render_home_neg {s : AppState} (h : s.start = false ∨ s.countdown = 0) :
    render_home s = s := by
  unfold render_home
  rw [if_neg]
  rcases h with h | h <;> simp [h]

theorem render_home_fields (s : AppState) :
    (render_home s).curr_input = s.curr_input ∧
    (render_home s).start = s.start ∧
    (render_home s).active_menu_item = s.active_menu_item ∧
    (render_home s).game_start_time = s.game_start_time ∧
    (render_home s).game_words = s.game_words ∧
    (render_home s).score = s.score ∧
    (render_home s).countdown ≤ s.countdown := by
  unfold render_home
  split <;> simp

theorem inv_drawHome (now : Nat) {s : AppState} (h : Inv s) : Inv (drawHome now s) := by
  obtain ⟨h1, h2, h3, h4, h5⟩ := h
  obtain ⟨f1, f2, f3, f4, f5, f6, f7⟩ := render_home_fields s
  simp only [drawHome]
  by_cases h0 : (render_home s).countdown = 0
  · rw [if_pos h0]
    exact ⟨by simp; omega, by simp, by simp, by simp, by simpa [f5] using h5⟩
  · rw [if_neg h0]
    exact ⟨by omega, fun _ => by omega, fun _ _ => by omega,
      fun hm => by rw [f4]; exact h4 (f3.symm.trans hm), by rw [f5]; exact h5⟩

theorem matchPhase_shape {fresh1 : String} {s s1 : AppState}
    (h : matchPhase fresh1 s = some s1) :
    (s1.active_menu_item = s.active_menu_item ∧
     s1.game_start_time = s.game_start_time ∧
     s1.start = s.start ∧
     s1.countdown = s.countdown ∧
     s1.game_words ≠ []) ∨ s1 = s := by
  cases hw : s.game_words with
  | nil => simp [matchPhase, hw] at h
  | cons w rest =>
    simp only [matchPhase, hw] at h
    by_cases ht : strTrim s.curr_input = w
    · rw [if_pos ht] at h
      left
      obtain rfl := (Option.some.inj h).symm
      simp
    · rw [if_neg ht] at h
      exact Or.inr (Option.some.inj h).symm

theorem timeoutPhase_shape {now : Nat} {s1 s2 : AppState}
    (h : timeoutPhase now s1 = some s2) :
    (s2 = { s1 with active_menu_item := MenuItem.GameOver, start := false }) ∨ s2 = s1 := by
  cases hg : s1.game_start_time with
  | none => simp [timeoutPhase, hg] at h
  | some g =>
    simp only [timeoutPhase, hg] at h
    by_cases hp : percentRaw (now - g) ≤ 0
    · rw [if_pos hp] at h
      exact Or.inl (Option.some.inj h).symm
    · rw [if_neg hp] at h
      exact Or.inr (Option.some.inj h).symm

theorem inv_drawStep {fresh1 : String} {fresh100 : List String} {now : Nat}
    {s s1 : AppState} (h100 : fresh100.length = 100)
    (h : drawStep fresh1 fresh100 now s = some s1) (hInv : Inv s) : Inv s1 := by
  obtain ⟨h1, h2, h3, h4, h5⟩ := hInv
  cases hmenu : s.active_menu_item with
  | Home =>
    simp only [drawStep, hmenu] at h
    obtain rfl := (Option.some.inj h).symm
    exact inv_drawHome now ⟨h1, h2, h3, h4, h5⟩
  | Game =>
    simp only [drawStep, hmenu] at h
    cases hm : matchPhase fresh1 s with
    | none => rw [hm] at h; exact absurd h (by simp)
    | some sm =>
      rw [hm] at h
      replace h : timeoutPhase now sm = some s1 := h
      have hmInv : Inv sm := by
        rcases matchPhase_shape hm with ⟨e1, e2, e3, e4, e5⟩ | heq
        · refine ⟨by omega, ?_, ?_, ?_, e5⟩
          · intro hh
            rw [e1, hmenu] at hh
            cases hh
          · intro hh
            rw [e1, hmenu] at hh
            cases hh
          · intro _
            rw [e2]
            exact h4 hmenu
        · rw [heq]
          exact ⟨h1, h2, h3, h4, h5⟩
      obtain ⟨m1, m2, m3, m4, m5⟩ := hmInv
      rcases timeoutPhase_shape h with rfl | rfl
      · exact ⟨m1, by simp, by simp, by simp, by simpa using m5⟩
      · exact ⟨m1, m2, m3, m4, m5⟩
  | GameOver =>
    simp only [drawStep, hmenu] at h
    obtain rfl := (Option.some.inj h).symm
    unfold drawGameOver
    by_cases hst : s.start = true
    · rw [if_pos hst]
      refine ⟨h1, fun _ => h3 hmenu hst, fun _ _ => h3 hmenu hst, by simp, ?_⟩
      intro hnil
      have hnil' : fresh100 = [] := hnil
      rw [hnil'] at h100
      simp at h100
    · rw [if_neg hst]
      exact ⟨h1, h2, h3, h4, h5⟩

theorem eta_curr_input (s : AppState) : s = { s with curr_input := s.curr_input } := rfl

theorem handleEvent_next_shape {r : RecvResult} {s s' : AppState}
    (h : handleEvent r s = StepResult.next s') :
    (∃ inp, s' = { s with curr_input := inp }) ∨
    (s.start = false ∧ s' = { s with start := true, countdown := 3, score := 0 }) := by
  cases r with
  | disconnected => simp [handleEvent] at h
  | ok e =>
    simp only [handleEvent] at h
    by_cases hst : s.start = true
    · rw [if_pos hst] at h
      left
      cases e with
      | Tick => exact ⟨s.curr_input, (StepResult.next.inj h).symm.trans (eta_curr_input s)⟩
      | Input k =>
        obtain ⟨code, mods⟩ := k
        cases mods with
        | NONE =>
          cases code with
          | Backspace => exact ⟨strPop s.curr_input, (StepResult.next.inj h).symm⟩
          | Char c => exact ⟨s.curr_input.push c, (StepResult.next.inj h).symm⟩
          | Enter => exact ⟨s.curr_input, (StepResult.next.inj h).symm.trans (eta_curr_input s)⟩
          | Other => exact ⟨s.curr_input, (StepResult.next.inj h).symm.trans (eta_curr_input s)⟩
        | CONTROL =>
          dsimp only at h
          by_cases ha : code = KeyCode.Char 'a'
          · rw [if_pos ha] at h
            exact ⟨"", (StepResult.next.inj h).symm⟩
          · rw [if_neg ha] at h
            exact ⟨s.curr_input, (StepResult.next.inj h).symm.trans (eta_curr_input s)⟩
        | OTHER => exact ⟨s.curr_input, (StepResult.next.inj h).symm.trans (eta_curr_input s)⟩
    · rw [if_neg hst] at h
      cases e with
      | Tick => exact Or.inl ⟨s.curr_input, (StepResult.next.inj h).symm.trans (eta_curr_input s)⟩
      | Input k =>
        obtain ⟨code, mods⟩ := k
        cases code with
        | Char c =>
          dsimp only at h
          by_cases hq : c = 'q'
          · rw [if_pos hq] at h; exact absurd h (by simp)
          · rw [if_neg hq] at h
            by_cases hsr : c = 's' ∨ c = 'r'
            · rw [if_pos hsr] at h
              exact Or.inr ⟨by simpa using hst, (StepResult.next.inj h).symm⟩
            · rw [if_neg hsr] at h
              exact Or.inl ⟨s.curr_input, (StepResult.next.inj h).symm.trans (eta_curr_input s)⟩
        | Backspace =>
          exact Or.inl ⟨s.curr_input, (StepResult.next.inj h).symm.trans (eta_curr_input s)⟩
        | Enter =>
          exact Or.inl ⟨s.curr_input, (StepResult.next.inj h).symm.trans (eta_curr_input s)⟩
        | Other =>
          exact Or.inl ⟨s.curr_input, (StepResult.next.inj h).symm.trans (eta_curr_input s)⟩

theorem inv_handleEvent {r : RecvResult} {s s' : AppState}
    (h : handleEvent r s = StepResult.next s') (hInv : Inv s) : Inv s' := by
  obtain ⟨h1, h2, h3, h4, h5⟩ := hInv
  rcases handleEvent_next_shape h with ⟨inp, rfl⟩ | ⟨-, rfl⟩
  · exact ⟨h1, h2, h3, h4, h5⟩
  · exact ⟨by simp, by simp, by simp, fun hm => h4 (by simpa using hm), h5⟩

theorem inv_loopStep {fresh1 : String} {fresh100 : List String} {now : Nat}
    {r : RecvResult} {s s' : AppState} (h100 : fresh100.length = 100)
    (h : loopStep fresh1 fresh100 now r s = LoopOutcome.next s') (hInv : Inv s) :
    Inv s' := by
  cases hd : drawStep fresh1 fresh100 now s with
  | none => simp [loopStep, hd] at h
  | some s1 =>
    simp only [loopStep, hd] at h
    have hInv1 := inv_drawStep h100 hd hInv
    cases he : handleEvent r s1 with
    | next s2 =>
      rw [he] at h
      have h' : s2 = s' := LoopOutcome.next.inj h
      exact h' ▸ inv_handleEvent he hInv1
    | exit a b c => rw [he] at h; exact absurd h (by simp)

theorem reachable_inv {s : AppState} (h : Reachable s) : Inv s := by
  induction h with
  | init words0 h100 => exact inv_initState words0 h100
  | step fresh1 fresh100 now r h100 hs hstep ih => exact inv_loopStep h100 hstep ih

/-- The `u64` subtraction `60 - in_game_timer` on line 189 (the gauge
title "Time Remaining"), as a checked operation: `none` is the underflow
case, a panic in a debug build. -/
def checkedSub (a b : Nat) : Option Nat :=
  if b ≤ a then some (a - b) else none

/-- The value printed in the "Time Remaining" gauge title for an elapsed
whole-second count `t` (line 189). -/
def timeRemainingVal (t : Nat) : Option Nat :=
  checkedSub 60 t

theorem percentRaw_nonpos_iff (t : Nat) : percentRaw t ≤ 0 ↔ 60 ≤ t := by
  unfold percentRaw
  omega

theorem drawStep_home {fresh1 : String} {fresh100 : List String} {now : Nat} {s : AppState}
    (hmenu : s.active_menu_item = MenuItem.Home) :
    drawStep fresh1 fresh100 now s = some (drawHome now s) := by
  simp only [drawStep, hmenu]

theorem drawStep_game {fresh1 : String} {fresh100 : List String} {now : Nat} {s : AppState}
    (hmenu : s.active_menu_item = MenuItem.Game) :
    drawStep fresh1 fresh100 now s = (matchPhase fresh1 s).bind (timeoutPhase now) := by
  simp only [drawStep, hmenu]

theorem drawStep_gameOver {fresh1 : String} {fresh100 : List String} {now : Nat} {s : AppState}
    (hmenu : s.active_menu_item = MenuItem.GameOver) :
    drawStep fresh1 fresh100 now s = some (drawGameOver fresh100 s) := by
  simp only [drawStep, hmenu]

theorem matchPhase_isSome {fresh1 : String} {s : AppState} (h : s.game_words ≠ []) :
    ∃ sm, matchPhase fresh1 s = some sm := by
  cases hw : s.game_words with
  | nil => exact absurd hw h
  | cons w rest =>
    simp only [matchPhase, hw]
    by_cases ht : strTrim s.curr_input = w
    · rw [if_pos ht]; exact ⟨_, rfl⟩
    · rw [if_neg ht]; exact ⟨_, rfl⟩

theorem timeoutPhase_isSome {now : Nat} {s1 : AppState}
    (h : s1.game_start_time.isSome = true) : (timeoutPhase now s1).isSome = true := by
  cases hg : s1.game_start_time with
  | none => rw [hg] at h; simp at h
  | some g =>
    simp only [timeoutPhase, hg]
    by_cases hp : percentRaw (now - g) ≤ 0
    · rw [if_pos hp]; rfl
    · rw [if_neg hp]; rfl

theorem handleEvent_ok_true_next {s : AppState} (hst : s.start = true) (e : Event) :
    ∃ s', handleEvent (RecvResult.ok e) s = StepResult.next s' := by
  simp only [handleEvent]
  rw [if_pos hst]
  cases e with
  | Tick => exact ⟨s, rfl⟩
  | Input k =>
    obtain ⟨code, mods⟩ := k
    cases mods with
    | NONE =>
      cases code with
      | Backspace => exact ⟨_, rfl⟩
      | Char c => exact ⟨_, rfl⟩
      | Enter => exact ⟨_, rfl⟩
      | Other => exact ⟨_, rfl⟩
    | CONTROL =>
      dsimp only
      by_cases ha : code = KeyCode.Char 'a'
      · rw [if_pos ha]; exact ⟨_, rfl⟩
      · rw [if_neg ha]; exact ⟨_, rfl⟩
    | OTHER => exact ⟨_, rfl⟩

theorem handleEvent_exit_shape {r : RecvResult} {s : AppState} {a b : Bool} {c : Nat}
    (h : handleEvent r s = StepResult.exit a b c) :
    (a = true ∧ b = true ∧ c = 0 ∧ s.start = false) ∨
    (a = false ∧ b = false ∧ c = 1 ∧ r = RecvResult.disconnected) := by
  cases r with
  | disconnected =>
    simp only [handleEvent] at h
    obtain ⟨rfl, rfl, rfl⟩ := StepResult.exit.inj h
    exact Or.inr ⟨rfl, rfl, rfl, rfl⟩
  | ok e =>
    by_cases hst : s.start = true
    · exfalso
      rcases handleEvent_ok_true_next hst e with ⟨s', hs'⟩
      rw [hs'] at h
      cases h
    · simp only [handleEvent] at h
      rw [if_neg hst] at h
      cases e with
      | Tick => cases h
      | Input k =>
        obtain ⟨code, mods⟩ := k
        cases code with
        | Char ch =>
          dsimp only at h
          by_cases hq : ch = 'q'
          · rw [if_pos hq] at h
            obtain ⟨rfl, rfl, rfl⟩ := StepResult.exit.inj h
            exact Or.inl ⟨rfl, rfl, rfl, by simpa using hst⟩
          · rw [if_neg hq] at h
            by_cases hsr : ch = 's' ∨ ch = 'r'
            · rw [if_pos hsr] at h; cases h
            · rw [if_neg hsr] at h; cases h
        | Backspace => cases h
        | Enter => cases h
        | Other => cases h

/-- Claim C1: in the Game screen, on every render pass, if the trimmed
input buffer equals the head word of the queue then the controller pops
that head, pushes exactly the one fresh word obtained from the supplier
onto the tail, clears the input buffer and increments the score by
exactly one; if they are not equal, words, input and score are unchanged
by the match check. -/
theorem claim_C1 (fresh1 : String) (fresh100 : List String) (now : Nat)
    (s s' : AppState) (w : String) (rest : List String)
    (hmenu : s.active_menu_item = MenuItem.Game)
    (hw : s.game_words = w :: rest)
    (hstep : drawStep fresh1 fresh100 now s = some s') :
    (strTrim s.curr_input = w →
      s'.game_words = rest ++ [fresh1] ∧ s'.curr_input = "" ∧ s'.score = s.score + 1) ∧
    (strTrim s.curr_input ≠ w →
      s'.game_words = s.game_words ∧ s'.curr_input = s.curr_input ∧ s'.score = s.score) := by
  rw [drawStep_game hmenu] at hstep
  cases hm : matchPhase fresh1 s with
  | none => rw [hm] at hstep; exact absurd hstep (by simp)
  | some sm =>
    rw [hm] at hstep
    replace hstep : timeoutPhase now sm = some s' := hstep
    have hfields : s'.game_words = sm.game_words ∧ s'.curr_input = sm.curr_input ∧
        s'.score = sm.score := by
      rcases timeoutPhase_shape hstep with rfl | rfl
      · exact ⟨rfl, rfl, rfl⟩
      · exact ⟨rfl, rfl, rfl⟩
    obtain ⟨g1, g2, g3⟩ := hfields
    simp only [matchPhase, hw] at hm
    constructor
    · intro ht
      rw [if_pos ht] at hm
      obtain rfl := (Option.some.inj hm).symm
      exact ⟨g1, g2, g3⟩
    · intro ht
      rw [if_neg ht] at hm
      obtain rfl := (Option.some.inj hm)
      exact ⟨g1, g2, g3⟩

/-- Witness for C1 at a concrete Game state: input "cat" matches the head
of ["cat", "dog"], the head is popped, the fresh word "fox" is pushed,
the input is cleared and the score goes from 0 to 1. -/
theorem claim_C1_witness :
    (strTrim gameState.curr_input = "cat" →
      gameStateAfter.game_words = ["dog"] ++ ["fox"] ∧
      gameStateAfter.curr_input = "" ∧
      gameStateAfter.score = gameState.score + 1) ∧
    (strTrim gameState.curr_input ≠ "cat" →
      gameStateAfter.game_words = gameState.game_words ∧
      gameStateAfter.curr_input = gameState.curr_input ∧
      gameStateAfter.score = gameState.score) :=
  claim_C1 "fox" [] 7 gameState gameStateAfter
    "cat" ["dog"] (by decide) (by decide) (by decide)

/-- Claim C8: a KeyInput q event received while started is false (Home
idle or GameOver) disables raw mode, shows the cursor and exits the
process with success, with no further state changes. -/
theorem claim_C8 (s : AppState) (k : KeyEvent) (hst : s.start = false)
    (hq : k.code = KeyCode.Char 'q') :
    handleEvent (RecvResult.ok (Event.Input k)) s = StepResult.exit true true 0 := by
  obtain ⟨code, mods⟩ := k
  have hc : code = KeyCode.Char 'q' := hq
  subst hc
  simp only [handleEvent]
  rw [if_neg (by simp [hst])]
  simp

/-- Witness for C8: pressing q on the initial idle Home screen exits
cleanly with the terminal restored. -/
theorem claim_C8_witness :
    handleEvent (RecvResult.ok (Event.Input ⟨KeyCode.Char 'q', KeyModifiers.NONE⟩))
      (initState words100) = StepResult.exit true true 0 :=
  claim_C8 (initState words100) ⟨KeyCode.Char 'q', KeyModifiers.NONE⟩ (by decide) (by decide)

/-- Claim C9: key events are dispatched solely on the started flag, not
on the current screen. Whenever started is true — regardless of the
active menu item, hence also during the Home countdown — a plain
character is appended to the input buffer, Backspace pops it, Ctrl-A
clears it, no key (q included) can quit, and the Home render leaves the
input buffer untouched, so characters typed during the countdown are
still in the buffer when the race begins. -/
theorem claim_C9 (s : AppState) (c : Char) (hst : s.start = true) :
    handleEvent (RecvResult.ok (Event.Input ⟨KeyCode.Char c, KeyModifiers.NONE⟩)) s
      = StepResult.next { s with curr_input := s.curr_input.push c } ∧
    handleEvent (RecvResult.ok (Event.Input ⟨KeyCode.Backspace, KeyModifiers.NONE⟩)) s
      = StepResult.next { s with curr_input := strPop s.curr_input } ∧
    handleEvent (RecvResult.ok (Event.Input ⟨KeyCode.Char 'a', KeyModifiers.CONTROL⟩)) s
      = StepResult.next { s with curr_input := "" } ∧
    (∀ k : KeyEvent, ∃ s', handleEvent (RecvResult.ok (Event.Input k)) s = StepResult.next s') ∧
    (∀ now : Nat, (drawHome now s).curr_input = s.curr_input) := by
  refine ⟨?_, ?_, ?_, fun k => handleEvent_ok_true_next hst (Event.Input k), ?_⟩
  · simp only [handleEvent]
    rw [if_pos hst]
  · simp only [handleEvent]
    rw [if_pos hst]
  · simp only [handleEvent]
    rw [if_pos hst]
    simp
  · intro now
    simp only [drawHome]
    obtain ⟨f1, -⟩ := render_home_fields s
    by_cases h0 : (render_home s).countdown = 0
    · rw [if_pos h0]
      exact f1
    · rw [if_neg h0]
      exact f1

/-- Witness for C9 at a concrete counting-down Home state with one
character already typed. -/
theorem claim_C9_witness :
    handleEvent (RecvResult.ok (Event.Input ⟨KeyCode.Char 'y', KeyModifiers.NONE⟩))
      homeCountdownState
      = StepResult.next { homeCountdownState with
          curr_input := homeCountdownState.curr_input.push 'y' } ∧
    handleEvent (RecvResult.ok (Event.Input ⟨KeyCode.Backspace, KeyModifiers.NONE⟩))
      homeCountdownState
      = StepResult.next { homeCountdownState with
          curr_input := strPop homeCountdownState.curr_input } ∧
    handleEvent (RecvResult.ok (Event.Input ⟨KeyCode.Char 'a', KeyModifiers.CONTROL⟩))
      homeCountdownState
      = StepResult.next { homeCountdownState with curr_input := "" } ∧
    (∀ k : KeyEvent, ∃ s', handleEvent (RecvResult.ok (Event.Input k)) homeCountdownState
      = StepResult.next s') ∧
    (∀ now : Nat, (drawHome now homeCountdownState).curr_input
      = homeCountdownState.curr_input) :=
  claim_C9 homeCountdownState 'y' (by decide)

/-- Claim C10: the time-remaining label of the Game render computes
`60 - elapsed` in unsigned arithmetic with no guard; it is total exactly
under the precondition that at most 60 whole seconds have elapsed, and
for any render with elapsed at least 61 seconds the subtraction
underflows. -/
theorem claim_C10 (t : Nat) :
    (t ≤ 60 → timeRemainingVal t = some (60 - t)) ∧
    (61 ≤ t → timeRemainingVal t = none) := by
  unfold timeRemainingVal checkedSub
  constructor
  · intro h
    rw [if_pos h]
  · intro h
    rw [if_neg (by omega)]

/-- Witness for C10: at 61 elapsed seconds the gauge-title subtraction
underflows; at 59 it yields 1. -/
theorem claim_C10_witness :
    timeRemainingVal 61 = none ∧ timeRemainingVal 59 = some (60 - 59) :=
  ⟨(claim_C10 61).2 (by decide), (claim_C10 59).1 (by decide)⟩

/-- Claim C2: in the Game screen the transition to GameOver fires at a
render if and only if at least 60 whole seconds have elapsed since
game_start at the moment the condition is evaluated — equivalently, iff
the computed percent is at most 0 — and on that transition started is
set to false while the score (as left by the match check of the same
render) is preserved. -/
theorem claim_C2 (fresh1 : String) (fresh100 : List String) (now g : Nat)
    (s s' : AppState)
    (hmenu : s.active_menu_item = MenuItem.Game)
    (hg : s.game_start_time = some g)
    (hstep : drawStep fresh1 fresh100 now s = some s') :
    (s'.active_menu_item = MenuItem.GameOver ↔ 60 ≤ now - g) ∧
    (percentRaw (now - g) ≤ 0 ↔ 60 ≤ now - g) ∧
    (60 ≤ now - g → s'.start = false) ∧
    (∀ sm, matchPhase fresh1 s = some sm → s'.score = sm.score) := by
  rw [drawStep_game hmenu] at hstep
  cases hm : matchPhase fresh1 s with
  | none => rw [hm] at hstep; exact absurd hstep (by simp)
  | some sm =>
    rw [hm] at hstep
    replace hstep : timeoutPhase now sm = some s' := hstep
    have hgm : sm.game_start_time = some g := by
      rcases matchPhase_shape hm with ⟨-, e2, -, -, -⟩ | heq
      · rw [e2, hg]
      · rw [heq, hg]
    have hmm : sm.active_menu_item = MenuItem.Game := by
      rcases matchPhase_shape hm with ⟨e1, -, -, -, -⟩ | heq
      · rw [e1, hmenu]
      · rw [heq, hmenu]
    simp only [timeoutPhase, hgm] at hstep
    have hiff := percentRaw_nonpos_iff (now - g)
    by_cases hp : percentRaw (now - g) ≤ 0
    · rw [if_pos hp] at hstep
      obtain rfl := (Option.some.inj hstep).symm
      refine ⟨⟨fun _ => hiff.mp hp, fun _ => rfl⟩, hiff, fun _ => rfl, fun sm' hm' => ?_⟩
      obtain rfl := Option.some.inj hm'
      rfl
    · rw [if_neg hp] at hstep
      obtain rfl := (Option.some.inj hstep).symm
      refine ⟨⟨fun hGO => absurd (hmm.symm.trans hGO) (by decide),
        fun h60 => absurd (hiff.mpr h60) hp⟩, hiff,
        fun h60 => absurd (hiff.mpr h60) hp, fun sm' hm' => ?_⟩
      obtain rfl := Option.some.inj hm'
      rfl

/-- Witness for C2: at the concrete state `timeUpState` rendered 60
seconds after game_start, the transition fires, started is reset and the
score 5 is preserved. -/
theorem claim_C2_witness :
    (timeUpAfter.active_menu_item = MenuItem.GameOver ↔ 60 ≤ 60 - 0) ∧
    (percentRaw (60 - 0) ≤ 0 ↔ 60 ≤ 60 - 0) ∧
    (60 ≤ 60 - 0 → timeUpAfter.start = false) ∧
    (∀ sm, matchPhase "fox" timeUpState = some sm → timeUpAfter.score = sm.score) :=
  claim_C2 "fox" [] 60 0 timeUpState timeUpAfter (by decide) (by decide) (by decide)

/-- Claim C3: in every reachable state, the word queue is non-empty, and
whenever the Game screen is active the game_start instant is set; hence
the Game render's accesses (the queue-front unwrap and the game_start
unwrap) never hit the empty or None case — every draw step succeeds. -/
theorem claim_C3 (s : AppState) (h : Reachable s) :
    (s.active_menu_item = MenuItem.Game →
      s.game_start_time.isSome = true ∧ s.game_words ≠ []) ∧
    s.game_words ≠ [] ∧
    (∀ (fresh1 : String) (fresh100 : List String) (now : Nat),
      (drawStep fresh1 fresh100 now s).isSome = true) := by
  obtain ⟨h1, h2, h3, h4, h5⟩ := reachable_inv h
  refine ⟨fun hm => ⟨h4 hm, h5⟩, h5, ?_⟩
  intro f1 f100 now
  cases hmenu : s.active_menu_item with
  | Home => rw [drawStep_home hmenu]; rfl
  | GameOver => rw [drawStep_gameOver hmenu]; rfl
  | Game =>
    rw [drawStep_game hmenu]
    obtain ⟨sm, hm⟩ := @matchPhase_isSome f1 s h5
    rw [hm]
    have hsm : sm.game_start_time.isSome = true := by
      rcases matchPhase_shape hm with ⟨-, e2, -, -, -⟩ | heq
      · rw [e2]; exact h4 hmenu
      · rw [heq]; exact h4 hmenu
    exact timeoutPhase_isSome hsm

/-- Witness for C3 at the initial state. -/
theorem claim_C3_witness :
    ((initState words100).active_menu_item = MenuItem.Game →
      (initState words100).game_start_time.isSome = true ∧
      (initState words100).game_words ≠ []) ∧
    (initState words100).game_words ≠ [] ∧
    (∀ (fresh1 : String) (fresh100 : List String) (now : Nat),
      (drawStep fresh1 fresh100 now (initState words100)).isSome = true) :=
  claim_C3 (initState words100) (Reachable.init words100 (by simp [words100]))

/-- Claim C6: in every reachable state the countdown is in `[0, 3]`; no
reachable Home render starts with countdown 0 (in particular none with
started = false, even though the code guards the transition only on
`countdown == 0`); and the Home render transitions to Game exactly when
started = true and the countdown reaches 0 during that render (i.e. it
was 1 on entry). -/
theorem claim_C6 (s : AppState) (now : Nat) (h : Reachable s) :
    s.countdown ≤ 3 ∧
    (s.active_menu_item = MenuItem.Home → 1 ≤ s.countdown) ∧
    (s.active_menu_item = MenuItem.Home →
      ((drawHome now s).active_menu_item = MenuItem.Game ↔
        s.start = true ∧ s.countdown = 1)) := by
  obtain ⟨h1, h2, h3, h4, h5⟩ := reachable_inv h
  refine ⟨h1, h2, fun hmenu => ?_⟩
  have hcd := h2 hmenu
  constructor
  · intro hG
    by_cases hs : s.start = true
    · refine ⟨hs, ?_⟩
      simp only [drawHome, render_home_pos hs (by omega)] at hG
      by_cases h0 : s.countdown - 1 = 0
      · omega
      · rw [if_neg h0] at hG
        have hh : s.active_menu_item = MenuItem.Game := hG
        rw [hmenu] at hh
        cases hh
    · exfalso
      have hrh : render_home s = s := render_home_neg (Or.inl (by simpa using hs))
      simp only [drawHome, hrh] at hG
      rw [if_neg (by omega)] at hG
      have hh : s.active_menu_item = MenuItem.Game := hG
      rw [hmenu] at hh
      cases hh
  · rintro ⟨hs, hc1⟩
    simp only [drawHome, render_home_pos hs (by omega)]
    rw [if_pos (by simp [hc1])]

/-- Witness for C6 at the reachable initial state: countdown 3, Home, and
the next Home render does not start the race since the countdown has not
reached 0. -/
theorem claim_C6_witness :
    (initState words100).countdown ≤ 3 ∧
    ((initState words100).active_menu_item = MenuItem.Home →
      1 ≤ (initState words100).countdown) ∧
    ((initState words100).active_menu_item = MenuItem.Home →
      ((drawHome 0 (initState words100)).active_menu_item = MenuItem.Game ↔
        (initState words100).start = true ∧ (initState words100).countdown = 1)) :=
  claim_C6 (initState words100) 0 (Reachable.init words100 (by simp [words100]))

/-- Claim C4 counterexample: at the Home render where the countdown
reaches 0 (state `homeCountdownState`: started, countdown 1, input "x"),
the controller transitions to Game and sets game_start, but the input
buffer still holds "x" — it is not cleared, contrary to the claim. -/
theorem claim_C4_counterexample :
    (drawHome 5 homeCountdownState).active_menu_item = MenuItem.Game ∧
    (drawHome 5 homeCountdownState).game_start_time = some 5 ∧
    (drawHome 5 homeCountdownState).curr_input = "x" ∧
    ¬ (drawHome 5 homeCountdownState).curr_input = "" := by
  decide

/-- Claim C4 amended: when the countdown reaches 0 on the Home screen
with started = true, the controller transitions the screen to Game and
sets game_start to the current instant; the input buffer is left
unchanged (it is not cleared). -/
theorem claim_C4_amended (now : Nat) (s : AppState)
    (hst : s.start = true) (hcd : s.countdown = 1) :
    (drawHome now s).active_menu_item = MenuItem.Game ∧
    (drawHome now s).game_start_time = some now ∧
    (drawHome now s).curr_input = s.curr_input := by
  simp only [drawHome, render_home_pos hst (by omega)]
  rw [if_pos (by simp [hcd])]
  exact ⟨rfl, rfl, rfl⟩

/-- Witness for the amended C4 at the concrete state
`homeCountdownState`. -/
theorem claim_C4_amended_witness :
    (drawHome 7 homeCountdownState).active_menu_item = MenuItem.Game ∧
    (drawHome 7 homeCountdownState).game_start_time = some 7 ∧
    (drawHome 7 homeCountdownState).curr_input = homeCountdownState.curr_input :=
  claim_C4_amended 7 homeCountdownState (by decide) (by decide)

theorem handleEvent_restart {s : AppState} (hst : s.start = false) {c : Char}
    (hc : c = 's' ∨ c = 'r') (mods : KeyModifiers) :
    handleEvent (RecvResult.ok (Event.Input ⟨KeyCode.Char c, mods⟩)) s
      = StepResult.next { s with start := true, countdown := 3, score := 0 } := by
  simp only [handleEvent]
  rw [if_neg (by simp [hst])]
  have hq : ¬ c = 'q' := by rcases hc with rfl | rfl <;> decide
  rw [if_neg hq, if_pos hc]

/-- Claim C5 counterexample: restarting from `gameOverState` (input "xy"
left over from the race, score 7) by pressing r and rendering once yields
Home with 100 fresh words, score 0, countdown 3 and started — but the
input buffer still holds "xy", not "", contrary to the claim. -/
theorem claim_C5_counterexample :
    handleEvent (RecvResult.ok (Event.Input ⟨KeyCode.Char 'r', KeyModifiers.NONE⟩))
      gameOverState = StepResult.next gameOverRearmed ∧
    drawStep "w" refill100 9 gameOverRearmed = some restartedState ∧
    restartedState.active_menu_item = MenuItem.Home ∧
    restartedState.game_words.length = 100 ∧
    restartedState.score = 0 ∧ restartedState.countdown = 3 ∧
    restartedState.start = true ∧
    ¬ restartedState.curr_input = "" := by
  decide

/-- Claim C5 amended: a restart from GameOver (pressing s or r followed
by the next render, which observes started = true) results in screen
Home, words refilled to the 100 fresh supplier entries, score 0,
countdown 3 and started = true; the input buffer is left unchanged (the
stale race input is not cleared). -/
theorem claim_C5_amended (s s1 s2 : AppState) (k : KeyEvent)
    (fresh1 : String) (fresh100 : List String) (now : Nat)
    (hmenu : s.active_menu_item = MenuItem.GameOver)
    (hst : s.start = false)
    (h100 : fresh100.length = 100)
    (hk : k.code = KeyCode.Char 's' ∨ k.code = KeyCode.Char 'r')
    (h1 : handleEvent (RecvResult.ok (Event.Input k)) s = StepResult.next s1)
    (h2 : drawStep fresh1 fresh100 now s1 = some s2) :
    s2.active_menu_item = MenuItem.Home ∧ s2.game_words = fresh100 ∧
    s2.game_words.length = 100 ∧ s2.score = 0 ∧ s2.countdown = 3 ∧
    s2.start = true ∧ s2.curr_input = s.curr_input := by
  obtain ⟨code, mods⟩ := k
  have hs1 : s1 = { s with start := true, countdown := 3, score := 0 } := by
    have hc : code = KeyCode.Char 's' ∨ code = KeyCode.Char 'r' := hk
    rcases hc with rfl | rfl
    · rw [handleEvent_restart hst (Or.inl rfl) mods] at h1
      exact (StepResult.next.inj h1).symm
    · rw [handleEvent_restart hst (Or.inr rfl) mods] at h1
      exact (StepResult.next.inj h1).symm
  subst hs1
  have hm1 : ({ s with start := true, countdown := 3, score := 0 } :
    AppState).active_menu_item = MenuItem.GameOver := hmenu
  rw [drawStep_gameOver hm1] at h2
  have hs2 : s2 = drawGameOver fresh100 { s with start := true, countdown := 3, score := 0 } :=
    (Option.some.inj h2).symm
  subst hs2
  unfold drawGameOver
  rw [if_pos rfl]
  exact ⟨rfl, rfl, h100, rfl, rfl, rfl, rfl⟩

/-- Witness for the amended C5 at the concrete restart scenario. -/
theorem claim_C5_amended_witness :
    restartedState.active_menu_item = MenuItem.Home ∧
    restartedState.game_words = refill100 ∧
    restartedState.game_words.length = 100 ∧ restartedState.score = 0 ∧
    restartedState.countdown = 3 ∧ restartedState.start = true ∧
    restartedState.curr_input = gameOverState.curr_input :=
  claim_C5_amended gameOverState gameOverRearmed restartedState
    ⟨KeyCode.Char 'r', KeyModifiers.NONE⟩ "w" refill100 9
    (by decide) (by decide) (by decide) (Or.inr (by decide)) (by decide) (by decide)

/-- Claim C7 counterexample: the channel-disconnect exit path (the
question mark on `rx.recv()`) returns from `main` without disabling raw
mode or showing the cursor, so terminal restoration does not happen on
every exit path — only the clean q path restores. -/
theorem claim_C7_counterexample :
    loopStep "w" words100 0 RecvResult.disconnected (initState words100)
      = LoopOutcome.exit false false 1 ∧
    Reachable (initState words100) :=
  ⟨by decide, Reachable.init words100 (by simp [words100])⟩

/-- Claim C7 amended: terminal restoration happens only on the clean quit
path. Every return from `main` is either the q path (raw mode disabled,
cursor shown, exit code 0) or an error path that exits non-zero without
restoring the terminal; a panic in the draw closure likewise leaves raw
mode enabled and the cursor hidden. -/
theorem claim_C7_amended (fresh1 : String) (fresh100 : List String) (now : Nat)
    (r : RecvResult) (s : AppState) (a b : Bool) (c : Nat) :
    (loopStep fresh1 fresh100 now r s = LoopOutcome.exit a b c →
      (a = true ∧ b = true ∧ c = 0) ∨ (a = false ∧ b = false ∧ c = 1)) ∧
    (drawStep fresh1 fresh100 now s = none →
      loopStep fresh1 fresh100 now r s = LoopOutcome.panicked false false) ∧
    handleEvent RecvResult.disconnected s = StepResult.exit false false 1 := by
  refine ⟨?_, ?_, rfl⟩
  · intro h
    cases hd : drawStep fresh1 fresh100 now s with
    | none => simp [loopStep, hd] at h
    | some s1 =>
      simp only [loopStep, hd] at h
      cases he : handleEvent r s1 with
      | next s2 => rw [he] at h; cases h
      | exit a' b' c' =>
        rw [he] at h
        obtain ⟨rfl, rfl, rfl⟩ := LoopOutcome.exit.inj h
        rcases handleEvent_exit_shape he with ⟨rfl, rfl, rfl, -⟩ | ⟨rfl, rfl, rfl, -⟩
        · exact Or.inl ⟨rfl, rfl, rfl⟩
        · exact Or.inr ⟨rfl, rfl, rfl⟩
  · intro hd
    simp [loopStep, hd]

/-- Witness for the amended C7: the clean q exit from the idle initial
state restores the terminal and succeeds. -/
theorem claim_C7_amended_witness :
    (true = true ∧ true = true ∧ 0 = 0) ∨ (true = false ∧ true = false ∧ 0 = 1) :=
  (claim_C7_amended "w" words100 0
      (RecvResult.ok (Event.Input ⟨KeyCode.Char 'q', KeyModifiers.NONE⟩))
      (initState words100) true true 0).1 (by decide)

end TuiTyping
